import Mathlib

/-!
Verification of the Roll-DPoS consensus core (iotex-core).

Shallow embedding of:
- `consensus/scheme/rolldpos/rolldposctx.go` (the consensus context and its
  FSM action interface),
- `db` counting index (`countingIndex.Add`),
- `blockchain/block/bloomfilter.go` (256-bit, 8-hash bloom filter).

Conventions of the embedding:
- Addresses are `Nat` (the Go code compares encoded address strings for
  equality only).  Block hashes are `List Nat` (byte strings compared for
  equality only).  Wall-clock times and durations are `Nat`.
- Go errors are the inductive `GoError`; `errors.Wrap` preserves the cause
  and `errors.Cause` is applied at every match site in the source, so a
  wrapped error is modelled by its cause.
- Fallible Go calls return `Except GoError _` or `Option GoError`
  (`none` = nil error); Go panics and nil-pointer dereferences are the
  `GoResult.panicked` outcome.
- The external collaborators (chain, action pool, round calculator) and the
  per-round endorsement store live in packages whose sources are not part of
  this snapshot; they are modelled from the specification (each such
  definition carries a `Modelled from the spec:` comment).  Everything else
  is translated line by line from the Go source.
-/

namespace Iotex

/-- Consensus vote topic (PROPOSAL / LOCK / COMMIT). -/
inductive Topic
  | PROPOSAL
  | LOCK
  | COMMIT
deriving DecidableEq, Repr

/-- Go error causes observable in the embedded code.  `other n` stands for
any further distinct error value produced by an external collaborator. -/
inductive GoError
  | insufficientEndorsements
  | invalidTipHeight
  | heightMismatch
  | wrongEndorser
  | wrongProposer
  | invalidBlockSignature
  | alreadyExists
  | notADelegate
  | invalidSignature
  | invalidMessage
  | other (n : Nat)
deriving DecidableEq, Repr

/-- Outcome of a Go computation that may panic. -/
inductive GoResult (α : Type)
  | panicked
  | value (a : α)
deriving DecidableEq, Repr

/-- An endorsement: endorser address, timestamp, and an abstract signature
validity flag (low-level crypto is out of scope; the spec only requires that
a signature either verifies or not). -/
structure Endorsement where
  endorser : Nat
  timestamp : Nat
  sigOk : Bool
deriving DecidableEq, Repr

/-- ConsensusVote document: a block hash and a topic. -/
structure ConsensusVote where
  blockHash : List Nat
  topic : Topic
deriving DecidableEq, Repr

/-- Modelled from the spec: a block as seen by the consensus core (§6 chain
contract).  The block package is not part of this snapshot, so the methods
the core calls on a block are abstracted into fields: `finalizeResult` is
the error returned by `Finalize` (none = success) and `protoOk` tells
whether `ConvertToBlockPb` returns a non-nil message.  `workingSetNil`
mirrors the `WorkingSet == nil` test. -/
structure Block where
  height : Nat
  timestamp : Nat
  hashBlock : List Nat
  producer : Nat
  sigOk : Bool
  workingSetNil : Bool
  finalizeResult : Option GoError
  protoOk : Bool
deriving DecidableEq, Repr

/-- A block proposal: the proposed block (a possibly-nil pointer in Go,
hence `Option`) together with the proof-of-lock endorsement bundle. -/
structure BlockProposal where
  block : Option Block
  proofOfLock : List Endorsement
deriving DecidableEq, Repr

end Iotex

namespace Iotex

/-! ## Bloom filter (`blockchain/block/bloomfilter.go`)

The 32-byte array is modelled as a function from byte index to byte value;
`Hash256b` is external crypto, so the 8 hash bytes of a key are an arbitrary
digest function `h : Nat → Nat` (`h i` = i-th byte of the digest); every
theorem below holds for every digest, hence for every 32-byte key. -/

/-- Source `setBit`: `f[pos>>3] |= 1 << (pos & 7)`. -/
def setBit (f : Nat → Nat) (pos : Nat) : Nat → Nat :=
  fun j => if j = pos >>> 3 then f j ||| (1 <<< (pos &&& 7)) else f j

/-- Source `chkBit`: `(f[pos>>3] & (1 << (pos & 7))) != 0`. -/
def chkBit (f : Nat → Nat) (pos : Nat) : Bool :=
  (f (pos >>> 3)) &&& (1 <<< (pos &&& 7)) != 0

/-- Source `Add`: set the bit at each of the first 8 digest bytes. -/
def bloomAdd (f : Nat → Nat) (h : Nat → Nat) : Nat → Nat :=
  (List.range 8).foldl (fun g i => setBit g (h i)) f

/-- Source `Exist`: check the bit at each of the first 8 digest
bytes, false on the first clear bit. -/
def bloomExist (f : Nat → Nat) (h : Nat → Nat) : Bool :=
  (List.range 8).all (fun i => chkBit f (h i))


/-- Lock state of a round: no decision yet, locked on a block hash, or
unlocked by a proof for a different hash. -/
inductive LockStatus
  | free
  | locked (hash : List Nat)
  | unlocked
deriving DecidableEq, Repr

/-- Modelled from the spec: the per-round context (§4.B endorsement store +
§4.C round context; the `roundCtx`/endorsement-manager sources are not part
of this snapshot).  `votes` maps each admitted endorsement to its
`(blockHash, topic)` slot; `blocks` is the set of candidate blocks;
`proofOfLock` is the endorsement bundle justifying the current lock. -/
structure Round where
  height : Nat
  roundNum : Nat
  startTime : Nat
  proposerAddr : Nat
  delegates : List Nat
  blocks : List Block
  votes : List (Endorsement × List Nat × Topic)
  lockStatus : LockStatus
  proofOfLock : List Endorsement
deriving DecidableEq, Repr

def Round.isLocked (r : Round) : Bool :=
  match r.lockStatus with
  | .locked _ => true
  | _ => false

def Round.isUnlocked (r : Round) : Bool :=
  match r.lockStatus with
  | .unlocked => true
  | _ => false

def Round.hashOfBlockInLock (r : Round) : List Nat :=
  match r.lockStatus with
  | .locked h => h
  | _ => []

/-- Source `Block(hash)`: look up a candidate block by hash. -/
def Round.blockLookup (r : Round) (h : List Nat) : Option Block :=
  r.blocks.find? (fun b => b.hashBlock == h)

/-- Modelled from the spec: distinct endorsers that endorsed `h` under one
of the `topics` (§4.B, union of endorser sets across topics). -/
def Round.supporters (r : Round) (h : List Nat) (topics : List Topic) :
    List Nat :=
  ((r.votes.filter
      (fun v => v.2.1 == h && topics.contains v.2.2)).map
    (fun v => v.1.endorser)).dedup

/-- Modelled from the spec: `EndorsedByMajority` — the union of endorser
sets across the topics has cardinality at least the super-majority
threshold `ceil(2*|D|/3) + 1` (§4.B). -/
def Round.endorsedByMajority (r : Round) (h : List Nat)
    (topics : List Topic) : Bool :=
  decide ((2 * r.delegates.length + 2) / 3 + 1 ≤
    (r.supporters h topics).length)

/-- Modelled from the spec: `Endorsements(hash, topics)` — all endorsements
of `hash` under the topics, in admission order. -/
def Round.endorsementsFor (r : Round) (h : List Nat)
    (topics : List Topic) : List Endorsement :=
  (r.votes.filter (fun v => v.2.1 == h && topics.contains v.2.2)).map
    (fun v => v.1)

/-- Union keyed by endorser, first seen wins (§4.B). -/
def unionByEndorserGo : List Endorsement → List Nat → List Endorsement
  | [], _ => []
  | e :: rest, seen =>
    if seen.contains e.endorser then unionByEndorserGo rest seen
    else e :: unionByEndorserGo rest (e.endorser :: seen)

def unionByEndorser (l : List Endorsement) : List Endorsement :=
  unionByEndorserGo l []

/-- Modelled from the spec: `AddBlock` fails with `AlreadyExists` if a block
with the same hash is present, otherwise indexes the block (§4.B). -/
def Round.addBlock (r : Round) (b : Block) : Except GoError Round :=
  if r.blocks.any (fun x => x.hashBlock == b.hashBlock) then
    .error .alreadyExists
  else
    .ok { r with blocks := r.blocks ++ [b] }

/-- Modelled from the spec: `AddVoteEndorsement` — validate that the
endorser is a delegate and the signature verifies; duplicates (same
endorser, hash, topic) are idempotent; on admission recompute the lock:
the hash becomes locked when it first achieves super-majority under
`{PROPOSAL, COMMIT}`, and a different hash achieving the same unlocks
(§4.B). -/
def Round.addVoteEndorsement (r : Round) (v : ConsensusVote)
    (en : Endorsement) : Except GoError Round :=
  if ¬ r.delegates.contains en.endorser then .error .notADelegate
  else if ¬ en.sigOk then .error .invalidSignature
  else if r.votes.any (fun w =>
      w.1.endorser == en.endorser && w.2.1 == v.blockHash
        && w.2.2 == v.topic) then
    .ok r
  else
    let r' := { r with votes := r.votes ++ [(en, v.blockHash, v.topic)] }
    .ok (if r'.endorsedByMajority v.blockHash [.PROPOSAL, .COMMIT] then
      match r.lockStatus with
      | .locked h =>
        if h == v.blockHash then r' else { r' with lockStatus := .unlocked }
      | _ =>
        { r' with
          lockStatus := .locked v.blockHash
          proofOfLock := unionByEndorser
            (r'.endorsementsFor v.blockHash [.PROPOSAL, .COMMIT]) }
    else r')


/-- Modelled from the spec: the chain contract (§6).  The blockchain
service is an external collaborator; its responses are oracle fields so
that every theorem quantifies over every chain behavior.  `mintNewBlock`
already accounts for the pending action map and the round start time
passed by `mintNewBlock` in the source. -/
structure Chain where
  commitBlock : Block → Option GoError
  validateBlock : Block → Option GoError
  mintNewBlock : Except GoError Block

/-- Modelled from the spec: the round calculator (§4.A; the
`roundCalculator` source is not part of this snapshot).  `proposer h t` is
the proposer of the round active at height `h` and time `t`; `newRound`
and `newRoundWithToleration` build a fresh round context. -/
structure RoundCalculator where
  proposer : Nat → Nat → Nat
  isDelegate : Nat → Nat → Bool
  newRound : Nat → Nat → Except GoError Round
  newRoundWithToleration : Nat → Nat → Except GoError Round

/-- The FSM TTL configuration (`config.RollDPoS.FSM`), durations in
nanoseconds, modelled as `Nat`. -/
structure FSMConfig where
  acceptBlockTTL : Nat
  acceptProposalEndorsementTTL : Nat
  acceptLockEndorsementTTL : Nat
  commitTTL : Nat
deriving DecidableEq, Repr

/-- The consensus context `rollDPoSCtx`.  The mutex, logger and metrics of
the source are concurrency/observability artifacts with no effect on the
values computed and are not modelled; `round` is threaded explicitly where
the source mutates it in place. -/
structure RollDPoSCtx where
  cfg : FSMConfig
  active : Bool
  encodedAddr : Nat
  chain : Chain
  roundCalc : RoundCalculator
  round : Round

/-- Document carried by an endorsed consensus message. -/
inductive Document
  | vote (v : ConsensusVote)
  | proposal (p : BlockProposal)
deriving DecidableEq, Repr

/-- Structure `EndorsedConsensusMessage`: height, document, endorsement. -/
structure EndorsedConsensusMessage where
  height : Nat
  document : Document
  endorsement : Endorsement
deriving DecidableEq, Repr

/-- The `interface{}` message argument of the FSM actions: Go `nil`, a
well-typed endorsed consensus message, or a value of any other type. -/
inductive Msg
  | nilMsg
  | ecm (m : EndorsedConsensusMessage)
  | badType
deriving DecidableEq, Repr

/-- Modelled from the spec: the crypto identity (§6) — a private key
"capable of producing a signed endorsement over (document, timestamp)",
so `endorsement.Endorse` always succeeds and yields an endorsement by this
node at the given timestamp. -/
def endorse (endorser : Nat) (ts : Nat) : Endorsement :=
  ⟨endorser, ts, true⟩

/-- Source `verifyVote` (rolldposctx.go): type-assert the message and its
document, admit the vote into the round, and require super-majority under
`topics`; returns the (threaded) round, the block hash of the vote, and the
error. -/
def verifyVote (r : Round) (msg : Msg) (topics : List Topic) :
    Round × List Nat × Option GoError :=
  match msg with
  | .ecm m =>
    match m.document with
    | .vote v =>
      match r.addVoteEndorsement v m.endorsement with
      | .error e => (r, v.blockHash, some e)
      | .ok r' =>
        if r'.endorsedByMajority v.blockHash topics then
          (r', v.blockHash, none)
        else
          (r', v.blockHash, some .insufficientEndorsements)
    | .proposal _ => (r, [], some .invalidMessage)
  | _ => (r, [], some .invalidMessage)

/-- Source `newEndorsement` (rolldposctx.go): sign a consensus vote at the given
timestamp and wrap it with the current round height. -/
def newEndorsement (ctx : RollDPoSCtx) (r : Round) (blkHash : List Nat)
    (topic : Topic) (ts : Nat) : EndorsedConsensusMessage :=
  ⟨r.height, .vote ⟨blkHash, topic⟩, endorse ctx.encodedAddr ts⟩

/-- Source `endorseBlockProposal` (rolldposctx.go): endorse a block proposal at
the round start time; dereferencing a nil block pointer panics. -/
def endorseBlockProposal (ctx : RollDPoSCtx) (p : BlockProposal) :
    GoResult EndorsedConsensusMessage :=
  match p.block with
  | none => .panicked
  | some b => .value ⟨b.height, .proposal p, endorse ctx.encodedAddr ctx.round.startTime⟩

/-- Source `mintNewBlock` (rolldposctx.go): mint a block from the action pool via
the chain; attach the proof-of-lock as proof of unlock when the round is
unlocked; endorse the proposal. -/
def mintNewBlock (ctx : RollDPoSCtx) :
    GoResult (Option EndorsedConsensusMessage × Option GoError) :=
  match ctx.chain.mintNewBlock with
  | .error e => .value (none, some e)
  | .ok blk =>
    let proofOfUnlock :=
      if ctx.round.isUnlocked then ctx.round.proofOfLock else []
    match endorseBlockProposal ctx ⟨some blk, proofOfUnlock⟩ with
    | .panicked => .panicked
    | .value m => .value (some m, none)

/-- Source `Proposal` (rolldposctx.go): only the current proposer produces a
message; if the round is locked, re-propose the locked block with the
proof-of-lock of the round, otherwise mint a new block. -/
def Proposal (ctx : RollDPoSCtx) :
    GoResult (Option EndorsedConsensusMessage × Option GoError) :=
  if ctx.round.proposerAddr ≠ ctx.encodedAddr then .value (none, none)
  else if ctx.round.isLocked then
    match endorseBlockProposal ctx
        ⟨ctx.round.blockLookup ctx.round.hashOfBlockInLock,
          ctx.round.proofOfLock⟩ with
    | .panicked => .panicked
    | .value m => .value (some m, none)
  else mintNewBlock ctx

/-- Source `IsDelegate` (rolldposctx.go): false in standby mode, otherwise
membership of the node in the delegate set of the current round. -/
def IsDelegate (ctx : RollDPoSCtx) : Bool :=
  if ¬ ctx.active then false
  else ctx.round.delegates.contains ctx.encodedAddr

/-- Source `Activate` (rolldposctx.go): set the active flag. -/
def Activate (ctx : RollDPoSCtx) (b : Bool) : RollDPoSCtx :=
  { ctx with active := b }

/-- Source `NewProposalEndorsement` (rolldposctx.go): for a proposal message,
validate the block via the chain (unless it carries a working set), add it
to the round, and endorse its hash; for a nil message, endorse the locked
hash when locked and the nil hash otherwise — in both cases a PROPOSAL
endorsement with deadline `startTime + acceptBlockTTL` is produced. -/
def NewProposalEndorsement (ctx : RollDPoSCtx) (msg : Msg) :
    GoResult (Round × Option EndorsedConsensusMessage × Option GoError) :=
  match msg with
  | .nilMsg =>
    let blockHash :=
      if ctx.round.isLocked then ctx.round.hashOfBlockInLock else []
    .value (ctx.round,
      some (newEndorsement ctx ctx.round blockHash .PROPOSAL
        (ctx.round.startTime + ctx.cfg.acceptBlockTTL)), none)
  | .badType => .value (ctx.round, none, some .invalidMessage)
  | .ecm m =>
    match m.document with
    | .vote _ => .value (ctx.round, none, some .invalidMessage)
    | .proposal p =>
      match p.block with
      | none => .panicked
      | some blk =>
        match (if blk.workingSetNil then ctx.chain.validateBlock blk
               else none) with
        | some e => .value (ctx.round, none, some e)
        | none =>
          match ctx.round.addBlock blk with
          | .error e => .value (ctx.round, none, some e)
          | .ok r' =>
            .value (r',
              some (newEndorsement ctx r' blk.hashBlock .PROPOSAL
                (r'.startTime + ctx.cfg.acceptBlockTTL)), none)

/-- Source `NewLockEndorsement` (rolldposctx.go): record the vote; insufficient
endorsements yield nothing without error; at majority with a non-empty
hash, emit a LOCK endorsement with deadline
`startTime + acceptBlockTTL + acceptProposalEndorsementTTL`; at majority
with the empty hash the node is unlocked and nothing is emitted. -/
def NewLockEndorsement (ctx : RollDPoSCtx) (msg : Msg) :
    Round × Option EndorsedConsensusMessage × Option GoError :=
  match verifyVote ctx.round msg [.PROPOSAL, .COMMIT] with
  | (r', _, some .insufficientEndorsements) => (r', none, none)
  | (r', blkHash, none) =>
    if blkHash.length ≠ 0 then
      (r', some (newEndorsement ctx r' blkHash .LOCK
        (r'.startTime + ctx.cfg.acceptBlockTTL
          + ctx.cfg.acceptProposalEndorsementTTL)), none)
    else (r', none, none)
  | (r', _, some e) => (r', none, some e)

/-- Outcome of `Commit`: a panic, or the returned `(bool, error)` pair. -/
inductive CommitRes
  | panicked
  | normal (committed : Bool) (err : Option GoError)
deriving DecidableEq, Repr

/-- Outcome record of `Commit` together with its side effects on the collaborators:
`resetCalled` — whether `actPool.Reset()` ran; `broadcastCalled` — whether
the committed block was handed to the broadcast sink. -/
structure CommitOut where
  res : CommitRes
  round : Round
  resetCalled : Bool
  broadcastCalled : Bool
deriving DecidableEq, Repr

/-- Source `Commit` (rolldposctx.go): record the COMMIT vote; at majority look up
the pending block, finalize it, commit it to the chain
(`ErrInvalidTipHeight` counts as success and short-circuits), then reset
the action pool and broadcast; a nil protobuf conversion panics after the
reset. -/
def Commit (ctx : RollDPoSCtx) (msg : Msg) : CommitOut :=
  match verifyVote ctx.round msg [.COMMIT] with
  | (r', _, some .insufficientEndorsements) =>
    ⟨.normal false none, r', false, false⟩
  | (r', _, some e) => ⟨.normal false (some e), r', false, false⟩
  | (r', blkHash, none) =>
    match r'.blockLookup blkHash with
    | none => ⟨.normal false none, r', false, false⟩
    | some pendingBlock =>
      match pendingBlock.finalizeResult with
      | some e => ⟨.normal false (some e), r', false, false⟩
      | none =>
        match ctx.chain.commitBlock pendingBlock with
        | some .invalidTipHeight => ⟨.normal true none, r', false, false⟩
        | some e => ⟨.normal false (some e), r', false, false⟩
        | none =>
          if pendingBlock.protoOk then ⟨.normal true none, r', true, true⟩
          else ⟨.panicked, r', true, false⟩

/-- The loop over `proposal.proofOfLock` in `CheckBlockProposer`: admit
each endorsement as a PROPOSAL vote for the block hash, retry as COMMIT on
failure, and abort with the COMMIT error if the retry also fails. -/
def applyProofOfLock (r : Round) (blkHash : List Nat) :
    List Endorsement → Except GoError Round
  | [] => .ok r
  | e :: rest =>
    match r.addVoteEndorsement ⟨blkHash, .PROPOSAL⟩ e with
    | .ok r' => applyProofOfLock r' blkHash rest
    | .error _ =>
      match r.addVoteEndorsement ⟨blkHash, .COMMIT⟩ e with
      | .ok r' => applyProofOfLock r' blkHash rest
      | .error err => .error err

/-- Source `CheckBlockProposer` (rolldposctx.go).  The endorser address is
decoded from the endorsement (`address.FromBytes` on the endorser hash
cannot fail for a well-formed endorsement and is modelled as the
`endorser` field); `ProposerAddress` of a proposal is the embedded
producer field of the block.  When endorser and producer differ, a throwaway round at the
timestamp of the endorsement carries the proof-of-lock check. -/
def CheckBlockProposer (ctx : RollDPoSCtx) (height : Nat)
    (p : BlockProposal) (en : Endorsement) : GoResult (Option GoError) :=
  match p.block with
  | none => .panicked
  | some blk =>
    .value (
      if height ≠ blk.height then some .heightMismatch
      else if ctx.roundCalc.proposer height en.timestamp ≠ en.endorser then
        some .wrongEndorser
      else if ctx.roundCalc.proposer height blk.timestamp ≠ blk.producer then
        some .wrongProposer
      else if ¬ blk.sigOk then some .invalidBlockSignature
      else if blk.producer ≠ en.endorser then
        match ctx.roundCalc.newRound height en.timestamp with
        | .error e => some e
        | .ok r0 =>
          match r0.addBlock blk with
          | .error e => some e
          | .ok r1 =>
            match applyProofOfLock r1 blk.hashBlock p.proofOfLock with
            | .error e => some e
            | .ok r2 =>
              if r2.endorsedByMajority blk.hashBlock [.PROPOSAL, .COMMIT]
              then none
              else some .insufficientEndorsements
      else none)

/-- Result of `newRollDPoSCtx`: a panic while generating the initial round,
the TTL-misconfiguration panic, or the constructed context. -/
inductive ConstructResult
  | roundPanicked
  | configPanicked
  | ok (ctx : RollDPoSCtx)

def ConstructResult.isConfigPanic : ConstructResult → Bool
  | .configPanicked => true
  | _ => false

def ConstructResult.isOk : ConstructResult → Bool
  | .ok _ => true
  | _ => false

/-- Source `newRollDPoSCtx` (rolldposctx.go): generate the initial round (panic on
failure), then panic if the four FSM TTLs sum to more than the block
interval, else build the context.  The round calculator the source
assembles from its arguments is passed in directly (its implementation is
not part of this snapshot). -/
def newRollDPoSCtx (cfg : FSMConfig) (active : Bool) (blockInterval : Nat)
    (chain : Chain) (rc : RoundCalculator) (encodedAddr : Nat)
    (now : Nat) : ConstructResult :=
  match rc.newRoundWithToleration 0 now with
  | .error _ => .roundPanicked
  | .ok round =>
    if cfg.acceptBlockTTL + cfg.acceptProposalEndorsementTTL
        + cfg.acceptLockEndorsementTTL + cfg.commitTTL > blockInterval then
      .configPanicked
    else .ok ⟨cfg, active, encodedAddr, chain, rc, round⟩

/-! ## Counting index (`db`, `countingIndex.Add`)

The bolt-DB `Update` transaction is external I/O; the result of the i-th
attempt is an arbitrary oracle `upd : Nat → Option GoError`
(`none` = success). -/

/-- Modulus of the Go `uint64` arithmetic, 2^64. -/
def UINT64_MOD : Nat := 2 ^ 64

/-- The counting index: `size` is the uint64 entry counter; `numRetries`
bounds the retry loop. -/
structure CountingIndex where
  size : Nat
  numRetries : Nat
deriving DecidableEq, Repr

/-- The retry loop of `Add`: run `upd` starting at attempt `i` with `fuel`
attempts left; the value is the final `err` variable — `none` as soon as
one attempt succeeds, otherwise the error of the last attempt (`none` when
the loop never runs). -/
def runUpdates (upd : Nat → Option GoError) : Nat → Nat → Option GoError
  | _, 0 => none
  | i, 1 => upd i
  | i, fuel + 2 =>
    match upd i with
    | none => none
    | some _ => runUpdates upd (i + 1) (fuel + 1)

/-- Source `countingIndex.Add`: retry the DB update up to `numRetries` times; the
final error is wrapped into `ErrIO` — and then dropped: the function
unconditionally increments `size` (uint64 arithmetic) and returns nil. -/
def countingIndexAdd (upd : Nat → Option GoError) (c : CountingIndex) :
    CountingIndex × Option GoError :=
  let _finalErr := runUpdates upd 0 c.numRetries
  ({ c with size := (c.size + 1) % UINT64_MOD }, none)

/-! ## Concrete fixtures used by witnesses and counterexamples -/

/-- Message projection of an FSM-action outcome (none on panic or when no
message is produced). -/
def producedMessage :
    GoResult (Round × Option EndorsedConsensusMessage × Option GoError) →
      Option EndorsedConsensusMessage
  | .panicked => none
  | .value (_, m, _) => m

def blkA : Block := ⟨5, 50, [9], 7, true, true, none, true⟩

def chainA : Chain := ⟨fun _ => none, fun _ => none, .ok blkA⟩

def roundEmpty : Round := ⟨0, 0, 0, 0, [], [], [], .free, []⟩

def rcA : RoundCalculator :=
  ⟨fun _ _ => 0, fun _ _ => false, fun _ _ => .ok roundEmpty,
    fun _ _ => .ok roundEmpty⟩

def cfgA : FSMConfig := ⟨2, 3, 4, 5⟩

def roundL : Round :=
  ⟨5, 0, 100, 7, [7, 2, 3], [blkA], [], .locked [9], [⟨2, 10, true⟩]⟩

def ctxL : RollDPoSCtx := ⟨cfgA, true, 7, chainA, rcA, roundL⟩

def roundU : Round := ⟨5, 0, 100, 7, [7, 2, 3], [], [], .free, []⟩

def ctxU : RollDPoSCtx := ⟨cfgA, true, 7, chainA, rcA, roundU⟩

def roundV : Round :=
  ⟨5, 0, 100, 1, [1, 2, 3], [],
    [(⟨1, 10, true⟩, [9], .PROPOSAL), (⟨2, 11, true⟩, [9], .COMMIT)],
    .free, []⟩

def ctxV : RollDPoSCtx := ⟨cfgA, true, 7, chainA, rcA, roundV⟩

def mV : EndorsedConsensusMessage :=
  ⟨5, .vote ⟨[9], .PROPOSAL⟩, ⟨3, 12, true⟩⟩

def rV : Round :=
  ⟨5, 0, 100, 1, [1, 2, 3], [],
    [(⟨1, 10, true⟩, [9], .PROPOSAL), (⟨2, 11, true⟩, [9], .COMMIT),
      (⟨3, 12, true⟩, [9], .PROPOSAL)],
    .locked [9], [⟨1, 10, true⟩, ⟨2, 11, true⟩, ⟨3, 12, true⟩]⟩

def roundC : Round :=
  ⟨5, 0, 100, 1, [1, 2, 3], [blkA],
    [(⟨1, 10, true⟩, [9], .COMMIT), (⟨2, 11, true⟩, [9], .COMMIT)],
    .free, []⟩

def ctxC : RollDPoSCtx := ⟨cfgA, true, 7, chainA, rcA, roundC⟩

def mC : EndorsedConsensusMessage :=
  ⟨5, .vote ⟨[9], .COMMIT⟩, ⟨3, 12, true⟩⟩

def rC : Round :=
  ⟨5, 0, 100, 1, [1, 2, 3], [blkA],
    [(⟨1, 10, true⟩, [9], .COMMIT), (⟨2, 11, true⟩, [9], .COMMIT),
      (⟨3, 12, true⟩, [9], .COMMIT)],
    .locked [9], [⟨1, 10, true⟩, ⟨2, 11, true⟩, ⟨3, 12, true⟩]⟩

def blkP : Block := ⟨5, 50, [7], 2, true, true, none, true⟩

def round1 : Round := ⟨5, 0, 100, 2, [1, 2, 3], [], [], .free, []⟩

def rc1 : RoundCalculator :=
  ⟨fun _ t => if t == 60 then 1 else 2, fun _ _ => false,
    fun _ _ => .ok round1, fun _ _ => .ok round1⟩

def ctx1 : RollDPoSCtx := ⟨cfgA, true, 7, chainA, rc1, roundEmpty⟩

def p1 : BlockProposal := ⟨some blkP, []⟩

def en1 : Endorsement := ⟨1, 60, true⟩

def r1W : Round := ⟨5, 0, 100, 2, [1, 2, 3], [blkP], [], .free, []⟩

/-! ## Theorems -/

theorem chkBit_iff_testBit (f : Nat → Nat) (pos : Nat) :
    chkBit f pos = true ↔ Nat.testBit (f (pos >>> 3)) (pos &&& 7) = true := by
  unfold chkBit
  rw [Nat.one_shiftLeft, Nat.and_two_pow]
  cases h : Nat.testBit (f (pos >>> 3)) (pos &&& 7) <;>
    simp [h, Nat.pos_iff_ne_zero, Nat.pos_pow_of_pos]

theorem chkBit_setBit_self (f : Nat → Nat) (pos : Nat) :
    chkBit (setBit f pos) pos = true := by
  rw [chkBit_iff_testBit]
  simp only [setBit]
  rw [if_pos trivial, Nat.one_shiftLeft, Nat.testBit_lor, Nat.testBit_two_pow_self]
  simp

theorem chkBit_setBit_mono (f : Nat → Nat) (p q : Nat)
    (h : chkBit f q = true) : chkBit (setBit f p) q = true := by
  rw [chkBit_iff_testBit] at h ⊢
  simp only [setBit]
  by_cases hij : q >>> 3 = p >>> 3
  · rw [if_pos hij, Nat.one_shiftLeft, Nat.testBit_lor, h]
    simp
  · rw [if_neg hij]
    exact h

theorem chkBit_foldSet_mono (h : Nat → Nat) (l : List Nat) (f : Nat → Nat)
    (p : Nat) (hc : chkBit f p = true) :
    chkBit (l.foldl (fun g i => setBit g (h i)) f) p = true := by
  induction l generalizing f with
  | nil => exact hc
  | cons hd tl ih =>
    exact ih (setBit f (h hd)) (chkBit_setBit_mono f (h hd) p hc)

theorem chkBit_foldSet_mem (h : Nat → Nat) (l : List Nat) (i : Nat)
    (hi : i ∈ l) (f : Nat → Nat) :
    chkBit (l.foldl (fun g j => setBit g (h j)) f) (h i) = true := by
  induction hi generalizing f with
  | head tl =>
    exact chkBit_foldSet_mono h tl (setBit f (h i)) (h i)
      (chkBit_setBit_self f (h i))
  | tail hd _ ih =>
    exact ih (setBit f (h hd))

theorem bloomExist_bloomAdd_self (f : Nat → Nat) (h : Nat → Nat) :
    bloomExist (bloomAdd f h) h = true := by
  unfold bloomExist bloomAdd
  rw [List.all_eq_true]
  intro i hi
  exact chkBit_foldSet_mem h (List.range 8) i hi f

theorem bloomExist_bloomAdd_mono (f : Nat → Nat) (h h' : Nat → Nat)
    (he : bloomExist f h = true) : bloomExist (bloomAdd f h') h = true := by
  unfold bloomExist at he ⊢
  unfold bloomAdd
  rw [List.all_eq_true] at he ⊢
  intro i hi
  exact chkBit_foldSet_mono h' (List.range 8) f (h i) (he i hi)

theorem bloomExist_foldAdds (h : Nat → Nat) (rest : List (Nat → Nat))
    (f : Nat → Nat) (he : bloomExist f h = true) :
    bloomExist (rest.foldl bloomAdd f) h = true := by
  induction rest generalizing f with
  | nil => exact he
  | cons hd tl ih =>
    exact ih (bloomAdd f hd) (bloomExist_bloomAdd_mono f h hd he)

theorem addVoteEndorsement_preserves (r : Round) (v : ConsensusVote)
    (en : Endorsement) (r' : Round)
    (h : r.addVoteEndorsement v en = .ok r') :
    r'.height = r.height ∧ r'.startTime = r.startTime ∧
      r'.delegates = r.delegates := by
  unfold Round.addVoteEndorsement at h
  split at h
  · cases h
  · split at h
    · cases h
    · split at h
      · cases h
        exact ⟨rfl, rfl, rfl⟩
      · injection h with h
        subst h
        repeat' split
        all_goals exact ⟨rfl, rfl, rfl⟩

/-- Claim C10: the 256-bit, 8-hash bloom filter has no false negatives:
for every filter state `f` and every key (represented by its digest `h`),
after `Add` the key `Exist`s, and this remains true after any further
sequence of `Add` calls — `Add` only sets bits and `Exist` only tests bits,
so set bits are never cleared. -/
theorem bloomFilter_no_false_negatives (f : Nat → Nat) (h : Nat → Nat)
    (rest : List (Nat → Nat)) :
    bloomExist (rest.foldl bloomAdd (bloomAdd f h)) h = true :=
  bloomExist_foldAdds h rest (bloomAdd f h) (bloomExist_bloomAdd_self f h)

/-- Claim C4: construction of the consensus context panics with the TTL
misconfiguration if and only if
`AcceptBlockTTL + AcceptProposalEndorsementTTL + AcceptLockEndorsementTTL
+ CommitTTL` strictly exceeds the block interval; when the sum is at most
the block interval, construction completes without the configuration
panic (given the initial round generation succeeds). -/
theorem newRollDPoSCtx_config_guard (cfg : FSMConfig) (active : Bool)
    (blockInterval : Nat) (chain : Chain) (rc : RoundCalculator)
    (encodedAddr now : Nat) (r : Round)
    (h : rc.newRoundWithToleration 0 now = .ok r) :
    ((newRollDPoSCtx cfg active blockInterval chain rc encodedAddr
        now).isConfigPanic = true ↔
      cfg.acceptBlockTTL + cfg.acceptProposalEndorsementTTL
        + cfg.acceptLockEndorsementTTL + cfg.commitTTL > blockInterval)
    ∧ (cfg.acceptBlockTTL + cfg.acceptProposalEndorsementTTL
        + cfg.acceptLockEndorsementTTL + cfg.commitTTL ≤ blockInterval →
      (newRollDPoSCtx cfg active blockInterval chain rc encodedAddr
        now).isOk = true) := by
  simp only [newRollDPoSCtx, h]
  by_cases hgt : cfg.acceptBlockTTL + cfg.acceptProposalEndorsementTTL
      + cfg.acceptLockEndorsementTTL + cfg.commitTTL > blockInterval
  · rw [if_pos hgt]
    exact ⟨⟨fun _ => hgt, fun _ => rfl⟩, fun hle => absurd hgt (by omega)⟩
  · rw [if_neg hgt]
    refine ⟨⟨fun hcp => ?_, fun hlt => absurd hlt hgt⟩, fun _ => rfl⟩
    exact absurd hcp (by simp [ConstructResult.isConfigPanic])

/-- Witness for C4: a TTL sum of 14 against a block interval of 10 makes
construction panic with the configuration error. -/
theorem newRollDPoSCtx_config_guard_witness :
    (newRollDPoSCtx ⟨3, 3, 3, 5⟩ true 10 chainA rcA 1 0).isConfigPanic
      = true :=
  (newRollDPoSCtx_config_guard ⟨3, 3, 3, 5⟩ true 10 chainA rcA 1 0
    roundEmpty rfl).1.mpr (by decide)

/-- Claim C9 (amended): `countingIndex.Add` always returns nil — even when
every one of the `numRetries` DB update attempts fails, the I/O error of
the last attempt is dropped — and sets the size to `(size + 1) mod 2^64`,
an increase by exactly one whenever the uint64 counter does not wrap. -/
theorem countingIndexAdd_spec (upd : Nat → Option GoError)
    (c : CountingIndex) :
    (countingIndexAdd upd c).2 = none ∧
    (countingIndexAdd upd c).1.size = (c.size + 1) % UINT64_MOD ∧
    (c.size + 1 < UINT64_MOD →
      (countingIndexAdd upd c).1.size = c.size + 1) :=
  ⟨rfl, rfl, fun h => Nat.mod_eq_of_lt h⟩

/-- Witness for C9: with three attempts all failing, `Add` still returns
nil and the size goes from 5 to 6. -/
theorem countingIndexAdd_spec_witness :
    (countingIndexAdd (fun _ => some (GoError.other 0)) ⟨5, 3⟩).2 = none ∧
    (countingIndexAdd (fun _ => some (GoError.other 0)) ⟨5, 3⟩).1.size
      = 6 :=
  ⟨(countingIndexAdd_spec (fun _ => some (GoError.other 0)) ⟨5, 3⟩).1,
    (countingIndexAdd_spec (fun _ => some (GoError.other 0)) ⟨5, 3⟩).2.2
      (by decide)⟩

/-- Counterexample for C9 as stated: at size `2^64 - 1` the uint64 counter
wraps to 0, so `Add` does not increase the size by exactly one. -/
theorem countingIndexAdd_wrap_cex :
    (countingIndexAdd (fun _ => some (GoError.other 0))
      ⟨UINT64_MOD - 1, 3⟩).1.size ≠ (UINT64_MOD - 1) + 1 := by
  decide

/-- Claim C7 (amended): `NewProposalEndorsement` with a nil message always
produces a PROPOSAL endorsement with deadline
`startTime + AcceptBlockTTL` — for the hash of the locked block when the round
is locked, and for the nil (empty) hash when it is not; it does not return
nothing in the unlocked case. -/
theorem newProposalEndorsement_nil (ctx : RollDPoSCtx) :
    NewProposalEndorsement ctx .nilMsg =
      .value (ctx.round,
        some ⟨ctx.round.height,
          .vote ⟨(if ctx.round.isLocked then ctx.round.hashOfBlockInLock
                  else []), .PROPOSAL⟩,
          endorse ctx.encodedAddr
            (ctx.round.startTime + ctx.cfg.acceptBlockTTL)⟩,
        none) :=
  rfl

/-- Counterexample for C7 as stated: a context whose round is not locked
for which `NewProposalEndorsement nil` still produces an endorsement
message. -/
theorem newProposalEndorsement_nil_unlocked_cex :
    ctxU.round.isLocked = false ∧
    producedMessage (NewProposalEndorsement ctxU .nilMsg) ≠ none := by
  decide

/-- Claim C8 (amended): after `Activate(false)` the node reports
`IsDelegate() = false` regardless of the delegate set, but `Proposal()`
does not consult the active flag at all: its result is identical for any
value of the flag, so a deactivated proposer still proposes. -/
theorem activate_false_passive (ctx : RollDPoSCtx) (b : Bool) :
    IsDelegate (Activate ctx false) = false ∧
    Proposal (Activate ctx b) = Proposal ctx :=
  ⟨rfl, rfl⟩

/-- Counterexample for C8 as stated: a deactivated node that is the
proposer of the current round still returns a proposal from `Proposal()`. -/
theorem proposal_ignores_active_cex :
    (Activate ctxL false).active = false ∧
    (Activate ctxL false).round.proposerAddr
      = (Activate ctxL false).encodedAddr ∧
    Proposal (Activate ctxL false) ≠ .value (none, none) := by
  decide

/-- Claim C5: `Proposal()` returns `(nil, nil)` whenever the encoded address of the node
differs from the proposer of the current round; when the node is the
proposer and the round is locked, it returns an endorsed re-proposal of the
locked block carrying the proof-of-lock of the round; when the node is the
proposer and the round is not locked, it mints a new block from the action
pool (via the chain) and returns an endorsed proposal of it. -/
theorem proposal_cases (ctx : RollDPoSCtx) :
    (ctx.round.proposerAddr ≠ ctx.encodedAddr →
      Proposal ctx = .value (none, none))
  ∧ (∀ blk : Block, ctx.round.proposerAddr = ctx.encodedAddr →
      ctx.round.isLocked = true →
      ctx.round.blockLookup ctx.round.hashOfBlockInLock = some blk →
      Proposal ctx = .value (some ⟨blk.height,
        .proposal ⟨some blk, ctx.round.proofOfLock⟩,
        endorse ctx.encodedAddr ctx.round.startTime⟩, none))
  ∧ (∀ blk : Block, ctx.round.proposerAddr = ctx.encodedAddr →
      ctx.round.isLocked = false →
      ctx.chain.mintNewBlock = .ok blk →
      Proposal ctx = .value (some ⟨blk.height,
        .proposal ⟨some blk,
          (if ctx.round.isUnlocked then ctx.round.proofOfLock else [])⟩,
        endorse ctx.encodedAddr ctx.round.startTime⟩, none)) := by
  refine ⟨fun hne => ?_, fun blk hp hl hb => ?_, fun blk hp hl hm => ?_⟩
  · unfold Proposal
    rw [if_pos hne]
  · have h1 : ¬ ctx.round.proposerAddr ≠ ctx.encodedAddr := by simp [hp]
    unfold Proposal
    rw [if_neg h1, if_pos hl, hb]
    rfl
  · have h1 : ¬ ctx.round.proposerAddr ≠ ctx.encodedAddr := by simp [hp]
    unfold Proposal
    rw [if_neg h1, if_neg (by simp [hl]), mintNewBlock, hm]
    rfl

/-- Witness for C5: a locked proposer context for which `Proposal` returns
the endorsed re-proposal of the locked block with its proof-of-lock. -/
theorem proposal_cases_witness :
    Proposal ctxL = .value (some ⟨5,
      .proposal ⟨some blkA, [⟨2, 10, true⟩]⟩, endorse 7 100⟩, none) :=
  (proposal_cases ctxL).2.1 blkA rfl rfl (by decide)

/-- Claim C6: for a valid consensus-vote message, `NewLockEndorsement`
records the vote into the round; if the hash of the vote has not reached
super-majority under `{PROPOSAL, COMMIT}` it returns nothing with no
error; if it has and the hash is non-empty, it returns a LOCK endorsement
for that hash whose timestamp deadline is
`startTime + AcceptBlockTTL + AcceptProposalEndorsementTTL`. -/
theorem newLockEndorsement_spec (ctx : RollDPoSCtx)
    (m : EndorsedConsensusMessage) (v : ConsensusVote) (r' : Round)
    (hdoc : m.document = .vote v)
    (hadd : ctx.round.addVoteEndorsement v m.endorsement = .ok r') :
    (NewLockEndorsement ctx (.ecm m)).1 = r'
  ∧ (r'.endorsedByMajority v.blockHash [.PROPOSAL, .COMMIT] = false →
      NewLockEndorsement ctx (.ecm m) = (r', none, none))
  ∧ (r'.endorsedByMajority v.blockHash [.PROPOSAL, .COMMIT] = true →
      v.blockHash ≠ [] →
      NewLockEndorsement ctx (.ecm m) =
        (r', some ⟨ctx.round.height, .vote ⟨v.blockHash, .LOCK⟩,
          endorse ctx.encodedAddr (ctx.round.startTime
            + ctx.cfg.acceptBlockTTL
            + ctx.cfg.acceptProposalEndorsementTTL)⟩, none)) := by
  obtain ⟨hh, hst, _⟩ :=
    addVoteEndorsement_preserves ctx.round v m.endorsement r' hadd
  refine ⟨?_, fun hmaj => ?_, fun hmaj hne => ?_⟩
  · simp only [NewLockEndorsement, verifyVote, hdoc, hadd]
    by_cases hmaj : r'.endorsedByMajority v.blockHash [.PROPOSAL, .COMMIT]
      = true
    · rw [if_pos hmaj]
      dsimp only
      by_cases hl : v.blockHash.length ≠ 0
      · simp [hl]
      · simp [hl]
    · rw [if_neg hmaj]
  · simp only [NewLockEndorsement, verifyVote, hdoc, hadd, hmaj,
      Bool.false_eq_true, if_false]
  · simp only [NewLockEndorsement, verifyVote, hdoc, hadd, hmaj, if_true]
    rw [if_pos (by simpa using hne)]
    simp [newEndorsement, hh, hst]

/-- Witness for C6: a PROPOSAL vote of a third delegate pushes the hash to
super-majority and a LOCK endorsement with deadline `100 + 2 + 3` is
produced. -/
theorem newLockEndorsement_spec_witness :
    NewLockEndorsement ctxV (.ecm mV) =
      (rV, some ⟨5, .vote ⟨[9], .LOCK⟩, endorse 7 105⟩, none) :=
  (newLockEndorsement_spec ctxV mV ⟨[9], .PROPOSAL⟩ rV rfl rfl).2.2
    (by decide) (by decide)

/-- Claim C2: when the COMMIT vote reaches super-majority for a block
present in the round, `Commit` returns true both when `CommitBlock`
succeeds and when it fails with `InvalidTipHeight`; any other chain error
yields `(false, error)`; a vote short of majority or an unknown pending
block yields `(false, nil)`. -/
theorem commit_result_cases (ctx : RollDPoSCtx) (msg : Msg) :
    (∀ r' bh, verifyVote ctx.round msg [.COMMIT]
        = (r', bh, some .insufficientEndorsements) →
      (Commit ctx msg).res = .normal false none)
  ∧ (∀ r' bh, verifyVote ctx.round msg [.COMMIT] = (r', bh, none) →
      r'.blockLookup bh = none →
      (Commit ctx msg).res = .normal false none)
  ∧ (∀ r' bh blk, verifyVote ctx.round msg [.COMMIT] = (r', bh, none) →
      r'.blockLookup bh = some blk → blk.finalizeResult = none →
      ((ctx.chain.commitBlock blk = some .invalidTipHeight →
          (Commit ctx msg).res = .normal true none)
      ∧ (ctx.chain.commitBlock blk = none → blk.protoOk = true →
          (Commit ctx msg).res = .normal true none)
      ∧ (∀ e, ctx.chain.commitBlock blk = some e →
          e ≠ .invalidTipHeight →
          (Commit ctx msg).res = .normal false (some e)))) := by
  refine ⟨fun r' bh hv => ?_, fun r' bh hv hl => ?_,
    fun r' bh blk hv hl hf => ⟨fun hc => ?_, fun hc hp => ?_,
      fun e hc hne => ?_⟩⟩
  · simp only [Commit, hv]
  · simp only [Commit, hv, hl]
  · simp only [Commit, hv, hl, hf, hc]
  · simp only [Commit, hv, hl, hf, hc, hp, if_true]
  · cases e
    case invalidTipHeight => exact absurd rfl hne
    all_goals simp only [Commit, hv, hl, hf, hc]

/-- Witness for C2: three COMMIT votes out of three delegates, pending
block known, chain commit succeeds — `Commit` returns `(true, nil)`. -/
theorem commit_result_cases_witness :
    (Commit ctxC (.ecm mC)).res = .normal true none :=
  (((commit_result_cases ctxC (.ecm mC)).2.2 rC [9] blkA rfl rfl
    rfl).2.1) rfl rfl

/-- Claim C3: `Commit` is atomic with respect to the chain and the action
pool: the action pool `Reset` runs if and only if the chain call
`CommitBlock` on the pending block actually succeeded; every failure path
(vote short of majority, unknown block, finalize error, chain error, and
also the `InvalidTipHeight` short-circuit) leaves the pool untouched. -/
theorem commit_reset_iff (ctx : RollDPoSCtx) (msg : Msg) :
    (Commit ctx msg).resetCalled = true ↔
      ∃ r' bh blk, verifyVote ctx.round msg [.COMMIT] = (r', bh, none)
        ∧ r'.blockLookup bh = some blk ∧ blk.finalizeResult = none
        ∧ ctx.chain.commitBlock blk = none := by
  rcases hv : verifyVote ctx.round msg [.COMMIT] with ⟨r', bh, verr⟩
  cases verr with
  | some e => cases e <;> simp [Commit, hv]
  | none =>
    cases hl : r'.blockLookup bh with
    | none => simp [Commit, hv, hl]
    | some blk =>
      cases hf : blk.finalizeResult with
      | some e => simp [Commit, hv, hl, hf]
      | none =>
        cases hc : ctx.chain.commitBlock blk with
        | none =>
          by_cases hp : blk.protoOk <;>
            · simp [Commit, hv, hl, hf, hc, hp]
              exact ⟨r', bh, ⟨rfl, rfl⟩, blk, hl, hf, hc⟩
        | some e => cases e <;> simp [Commit, hv, hl, hf, hc]

/-- Claim C1: in `CheckBlockProposer`, when all preliminary checks pass
and the embedded proposer of the proposal differs from the endorser, the
function rebuilds a round at the timestamp of the endorsement, adds the block,
admits every proof-of-lock endorsement as PROPOSAL with a COMMIT retry
(propagating the error of a failing retry), and returns
`InsufficientEndorsements` exactly when, after all admissions, the block
hash lacks super-majority under `{PROPOSAL, COMMIT}` — and nil exactly
when it has it. -/
theorem checkBlockProposer_lock_carryover (ctx : RollDPoSCtx)
    (height : Nat) (p : BlockProposal) (en : Endorsement) (blk : Block)
    (r0 r1 : Round)
    (hblk : p.block = some blk)
    (hh : height = blk.height)
    (hen : ctx.roundCalc.proposer height en.timestamp = en.endorser)
    (hpr : ctx.roundCalc.proposer height blk.timestamp = blk.producer)
    (hsig : blk.sigOk = true)
    (hne : blk.producer ≠ en.endorser)
    (hnr : ctx.roundCalc.newRound height en.timestamp = .ok r0)
    (hab : r0.addBlock blk = .ok r1) :
    (∀ e, applyProofOfLock r1 blk.hashBlock p.proofOfLock = .error e →
      CheckBlockProposer ctx height p en = .value (some e))
  ∧ (∀ r2, applyProofOfLock r1 blk.hashBlock p.proofOfLock = .ok r2 →
      ((CheckBlockProposer ctx height p en
          = .value (some .insufficientEndorsements) ↔
        r2.endorsedByMajority blk.hashBlock [.PROPOSAL, .COMMIT] = false)
      ∧ (CheckBlockProposer ctx height p en = .value none ↔
        r2.endorsedByMajority blk.hashBlock [.PROPOSAL, .COMMIT]
          = true))) := by
  have hred : CheckBlockProposer ctx height p en = .value (
      match applyProofOfLock r1 blk.hashBlock p.proofOfLock with
      | .error e => some e
      | .ok r2 =>
        if r2.endorsedByMajority blk.hashBlock [.PROPOSAL, .COMMIT]
        then none else some .insufficientEndorsements) := by
    simp only [CheckBlockProposer, hblk, hnr, hab]
    rw [if_neg (by simp [hh]), if_neg (by simp [hen]),
      if_neg (by simp [hpr]), if_neg (by simp [hsig]), if_pos hne]
  refine ⟨fun e hap => ?_, fun r2 hap => ?_⟩
  · rw [hred, hap]
  · rw [hred, hap]
    by_cases hm : r2.endorsedByMajority blk.hashBlock [.PROPOSAL, .COMMIT]
      = true
    · simp [hm]
    · rw [Bool.not_eq_true] at hm
      simp [hm]

/-- Witness for C1: a lock-carryover proposal with an empty proof-of-lock
bundle fails the super-majority check and `CheckBlockProposer` returns
`InsufficientEndorsements`. -/
theorem checkBlockProposer_lock_carryover_witness :
    CheckBlockProposer ctx1 5 p1 en1
      = .value (some .insufficientEndorsements) :=
  (((checkBlockProposer_lock_carryover ctx1 5 p1 en1 blkP round1 r1W
    rfl rfl rfl rfl rfl (by decide) rfl rfl).2 r1W rfl).1).mpr (by decide)

end Iotex
